import Mathlib

/-!
Shallow embedding of the go-fork/sms provider dispatch core:
the retry engine (`src/retry/retry.go`), the template renderer
(`model.Message.Render`), and the provider registry (`sms.Module`).

Modelling conventions:
* Go `error` values are modelled by the inductive `GoError`.  The
  constructors cover exactly the error shapes the embedded code can
  see: values satisfying `net.Error`, the two context sentinels,
  `*url.Error`, the package's own `*HTTPError`, plain `errors.New`
  strings, and `fmt.Errorf` wrappers created with `%w`.
* Go stdlib fact used by the embedding: `context.DeadlineExceeded`
  is a `deadlineExceededError{}` value carrying `Timeout()` and
  `Temporary()` methods, hence it satisfies the `net.Error`
  interface and `errors.As(err, &netErr)` succeeds on it.
  `context.Canceled` is a plain `errors.New` value and does not.
  `*url.Error` also carries `Timeout()`/`Temporary()` and satisfies
  `net.Error`.
* `errors.Is` compares chain elements by `==`; sentinel identity is
  modelled by constructor (and, for `strErr`, string) equality.
* `time.Duration` is an `int64` nanosecond count, modelled as `Int`.
  `float64` arithmetic in the backoff computation is modelled by
  exact rational arithmetic; on every input considered here
  (multiplier 2.0, small integral delays) the `float64` computation
  is exact, so the models agree.
-/

inductive GoError where
  /-- an error value satisfying `net.Error` (e.g. `*net.OpError`) -/
  | netErr (msg : String)
  /-- the `context.Canceled` sentinel -/
  | ctxCanceled
  /-- the `context.DeadlineExceeded` sentinel -/
  | ctxDeadlineExceeded
  /-- a `*url.Error` with operation, URL and a wrapped inner error -/
  | urlErr (op u : String) (inner : GoError)
  /-- the package's `*HTTPError` with status code and message -/
  | httpErr (statusCode : Int) (msg : String)
  /-- a plain `errors.New` / formatted error with no wrapped error -/
  | strErr (msg : String)
  /-- `fmt.Errorf` with a single `%w` verb: message is
      `pre ++ inner.Error() ++ post` and `Unwrap` yields `inner` -/
  | wrapped (pre : String) (inner : GoError) (post : String)
deriving DecidableEq, Repr

namespace GoError

/-- the Go `Error()` string of a modelled error.
`*HTTPError.Error()` is `fmt.Sprintf("HTTP error: status code: %d, message: %s", ...)`;
`*url.Error.Error()` is `op ++ " " ++ url ++ ": " ++ inner` (quotes around
the URL omitted in the model; no claim depends on them). -/
def errorMsg : GoError → String
  | netErr m => m
  | ctxCanceled => "context canceled"
  | ctxDeadlineExceeded => "context deadline exceeded"
  | urlErr op u inner => op ++ " " ++ u ++ ": " ++ errorMsg inner
  | httpErr sc m => "HTTP error: status code: " ++ toString sc ++ ", message: " ++ m
  | strErr m => m
  | wrapped pre inner post => pre ++ errorMsg inner ++ post

/-- whether this chain element itself satisfies the `net.Error`
interface: explicit net errors, `*url.Error`, and (Go stdlib fact)
`context.DeadlineExceeded`. -/
def isNetErrorVal : GoError → Bool
  | netErr _ => true
  | ctxDeadlineExceeded => true
  | urlErr _ _ _ => true
  | _ => false

/-- whether this chain element is one of the two context sentinels,
compared by identity as `errors.Is` does. -/
def isCtxSentinelVal : GoError → Bool
  | ctxCanceled => true
  | ctxDeadlineExceeded => true
  | _ => false

/-- whether this chain element is a `*url.Error`. -/
def isURLErrVal : GoError → Bool
  | urlErr _ _ _ => true
  | _ => false

/-- walk the `Unwrap` chain (as `errors.Is` / `errors.As` do) testing
each element with `p`. -/
def chainAny (p : GoError → Bool) : GoError → Bool
  | wrapped pre inner post => p (wrapped pre inner post) || chainAny p inner
  | urlErr op u inner => p (urlErr op u inner) || chainAny p inner
  | e => p e

/-- `errors.As(err, &netErr)` for `netErr : net.Error`. -/
def errorsAsNetError (e : GoError) : Bool := chainAny isNetErrorVal e

/-- `errors.Is(err, context.DeadlineExceeded) || errors.Is(err, context.Canceled)`. -/
def errorsIsCtx (e : GoError) : Bool := chainAny isCtxSentinelVal e

/-- `errors.As(err, &urlErr)` for `urlErr : *url.Error`. -/
def errorsAsURLError (e : GoError) : Bool := chainAny isURLErrVal e

/-- `errors.As(err, &httpErr)`: status code of the first `*HTTPError`
in the unwrap chain, if any. -/
def findHTTPError : GoError → Option Int
  | httpErr sc _ => some sc
  | wrapped _ inner _ => findHTTPError inner
  | urlErr _ _ inner => findHTTPError inner
  | _ => none

/-- `errors.Is(e, target)`: equality against any element of the unwrap
chain. -/
def errorsIs (e target : GoError) : Bool := chainAny (fun x => x = target) e

end GoError

/-- `strings.Contains hay needle`. -/
def strContains (hay needle : String) : Bool :=
  hay.toList.tails.any (fun t => needle.toList.isPrefixOf t)

/-- `strings.ToLower` (ASCII-sufficient for every string the code matches). -/
def lowerStr (s : String) : String := String.mk (s.toList.map Char.toLower)

namespace retry

/-- `retry.ErrMaxAttemptsReached`, the sentinel wrapped around the last
error when the attempt budget is exhausted. -/
def errMaxAttemptsReached : GoError := .strErr "maximum retry attempts reached"

/-- `fmt.Errorf("%w: %v", ErrMaxAttemptsReached, err)`: the sentinel is
wrapped (reachable by `errors.Is`), the operation error is flattened
into the message text only. -/
def wrapMaxAttempts (e : GoError) : GoError :=
  .wrapped "" errMaxAttemptsReached (": " ++ e.errorMsg)

/-- `retry.IsRetriable`, the default classifier, clause for clause:
net-error check, context-sentinel check, url-error check, raw
substring checks, lowercase substring checks, `*HTTPError` status
check, closed default `false`.  The `err == nil` guard of the Go code
is handled at the call sites, which only classify non-nil errors. -/
def IsRetriable (err : GoError) : Bool :=
  if err.errorsAsNetError then true
  else if err.errorsIsCtx then false
  else if err.errorsAsURLError then true
  else
    let errStr := err.errorMsg
    if strContains errStr ("status code: 5") || strContains errStr ("500") ||
       strContains errStr ("502") || strContains errStr ("503") ||
       strContains errStr ("504") then true
    else
      let low := lowerStr errStr
      if strContains low ("timeout") || strContains low ("connection refused") ||
         strContains low ("connection reset") || strContains low ("temporary") ||
         strContains low ("too many requests") || strContains low ("service unavailable") then
        true
      else
        match err.findHTTPError with
        | some sc => decide (500 ≤ sc) || decide (sc = 429)
        | none => false

/-- `retry.Config` (the optional custom classifier is passed separately
to the executor model, mirroring the `isRetriable` local of `Do`). -/
structure Config where
  maxAttempts : Int
  initialDelay : Int
  maxDelay : Int
  multiplier : ℚ
deriving Repr

/-- `time.Duration(float64(delay) * multiplier)`: the float product
truncated toward zero.  With the multiplier written as the reduced
rational `num/den` (`den > 0`), the truncation of `delay * num/den`
is the T-division of `delay * num` by `den`. -/
def goDuration (delay : Int) (m : ℚ) : Int := (delay * m.num).tdiv (m.den : Int)

/-- observable outcome of a `Do` run: how many times `fn` was invoked,
the completed inter-attempt sleeps in order, and the returned error
(`none` is success). -/
structure DoTrace where
  invocations : Nat
  waits : List Int
  result : Option GoError
deriving DecidableEq, Repr

/-- the retry loop of `retry.Do`, one constructor case per iteration.
`remaining` counts the attempts still permitted (so `remaining = k+1`
at loop index `attempt` means `attempt = maxAttempts-1` exactly when
`k = 0`), `delay` is the current value of the `delay` variable.
`fn i` is the outcome of the `i`-th invocation of the operation
(`none` = success); `cancelDuring i` states that the caller's context
is observed done during the sleep that follows attempt `i` (the
`select` race resolved toward `ctx.Done()`); `ctxErr` is `ctx.Err()`. -/
def doAux (isRetr : GoError → Bool) (fn : Nat → Option GoError)
    (cancelDuring : Nat → Bool) (mult : ℚ) (maxDelay : Int) (ctxErr : GoError) :
    Nat → Nat → Int → DoTrace
  | 0, _, _ => ⟨0, [], none⟩
  | remaining + 1, attempt, delay =>
    match fn attempt with
    | none => ⟨1, [], none⟩
    | some e =>
      if remaining = 0 then
        ⟨1, [], some (wrapMaxAttempts e)⟩
      else if !isRetr e then
        ⟨1, [], some e⟩
      else
        let nextDelay := min (goDuration delay mult) maxDelay
        if cancelDuring attempt then
          ⟨1, [], some ctxErr⟩
        else
          let rest := doAux isRetr fn cancelDuring mult maxDelay ctxErr
              remaining (attempt + 1) nextDelay
          ⟨rest.invocations + 1, nextDelay :: rest.waits, rest.result⟩

/-- `retry.Do`: reject a non-positive attempt budget before any
attempt, otherwise run the loop starting from `InitialDelay`. -/
def Do (cfg : Config) (isRetr : GoError → Bool) (fn : Nat → Option GoError)
    (cancelDuring : Nat → Bool) (ctxErr : GoError) : DoTrace :=
  if cfg.maxAttempts ≤ 0 then
    ⟨0, [], some (.strErr "retry attempts must be greater than 0")⟩
  else
    doAux isRetr fn cancelDuring cfg.multiplier cfg.maxDelay ctxErr
      cfg.maxAttempts.toNat 0 cfg.initialDelay

end retry

/-! ## Template renderer (`model.Message.Render`) -/

/-- a template/data-bag value (`interface{}` in the source, printed
with `fmt.Sprintf("%v", v)`).  The shapes exercised by the claims are
strings, integers and booleans; other shapes print deterministically
in Go as well and would add nothing to the claims. -/
inductive GoValue where
  | str (s : String)
  | int (i : Int)
  | bool (b : Bool)
deriving DecidableEq, Repr

/-- `fmt.Sprintf("%v", v)` on the modelled values. -/
def formatV : GoValue → String
  | .str s => s
  | .int i => toString i
  | .bool b => if b then "true" else "false"

/-- a Go `map[string]interface{}`, modelled extensionally. -/
def GoMap : Type := String → Option GoValue

/-- `data[k] = v` on the modelled map. -/
def mapSet (d : GoMap) (k : String) (v : GoValue) : GoMap :=
  fun k2 => if k2 = k then some v else d k2

/-- the empty map produced by `make(map[string]interface{})`. -/
def emptyGoMap : GoMap := fun _ => none

/-- `model.Message`: sender, recipient and application tag. -/
structure Message where
  From : String
  To : String
  By : String
deriving DecidableEq, Repr

/-- `regexp.MustCompile("{([^\x7b\x7d]+)}").ReplaceAllStringFunc`
specialised to the replacement closure of `Message.Render`, as a
one-pass scanner.  The state `none` means "outside any placeholder
candidate"; `some acc` means "an opening brace was seen and `acc`
holds the (reversed) brace-free characters read since".  Replacement
of the regexp's leftmost non-overlapping matches corresponds to this
scan exactly: a candidate that reaches a closing brace with a
non-empty body is a match (substitute `fmt.Sprintf("%v", data[key])`
when the key is present, leave the placeholder text verbatim when it
is not, then continue after the brace); a candidate interrupted by a
second opening brace emits its characters literally (no match can
begin inside `acc`, which is brace-free) and the new brace opens the
next candidate; an empty body `{}` or an unterminated candidate at
the end of input is emitted literally. -/
def renderChars (data : GoMap) : Option (List Char) → List Char → List Char
  | none, [] => []
  | some acc, [] => '{' :: acc.reverse
  | none, c :: rest =>
    if c = '{' then renderChars data (some []) rest
    else c :: renderChars data none rest
  | some acc, c :: rest =>
    if c = '{' then
      '{' :: acc.reverse ++ renderChars data (some []) rest
    else if c = '}' then
      if acc.isEmpty then
        '{' :: '}' :: renderChars data none rest
      else
        match data (String.mk acc.reverse) with
        | some v => (formatV v).toList ++ renderChars data none rest
        | none => '{' :: acc.reverse ++ '}' :: renderChars data none rest
    else renderChars data (some (c :: acc)) rest

/-- one `if _, exists := data[key]; !exists { data[key] = v }` step of
`Message.Render`. -/
def setIfAbsent (d : GoMap) (key : String) (v : GoValue) : GoMap :=
  if (d key).isSome then d else mapSet d key v

/-- the data bag after the three reserved-key insertions at the top of
`Message.Render`: each of `from`, `to`, `by` is set to the identity
field only when the key is absent from the caller's bag. -/
def effectiveData (m : Message) (d : GoMap) : GoMap :=
  setIfAbsent (setIfAbsent (setIfAbsent d ("from") (.str m.From))
    ("to") (.str m.To)) ("by") (.str m.By)

/-- `model.Message.Render`.  The Go function mutates the caller's map
in place; the model returns the rendered string together with the map
as it stands after the call (`none` in, local map out, mirrors the
`data == nil` branch that allocates a fresh map invisible to the
caller).  The empty-template early return happens before any map
manipulation. -/
def Message.Render (m : Message) (template : String) (data : Option GoMap) :
    String × Option GoMap :=
  if template = "" then ("", data)
  else
    let d0 : GoMap := match data with | some d => d | none => emptyGoMap
    let d3 := effectiveData m d0
    (String.mk (renderChars d3 none template.toList), some d3)

/-! ## Provider registry (`sms.Module`) -/

namespace config

/-- the loaded `config.Config` fields the dispatch registry reads
(`LoadConfig` itself is file I/O, out of the embedded core). -/
structure Config where
  DefaultProvider : String
  RetryAttempts : Int
  RetryDelay : Int
deriving DecidableEq, Repr

end config

namespace sms

/-- a registered backend (`model.Provider`).  `tag` distinguishes
distinct instances that report the same `Name()`. -/
structure Provider where
  name : String
  tag : Nat
deriving DecidableEq, Repr

/-- `sms.Module`: configuration, the name-keyed provider map, and the
active-provider reference. -/
structure Module where
  config : config.Config
  providers : String → Option Provider
  activeProvider : Option Provider

/-- `sms.NewModule` after a successful config load: empty provider
map, no active provider. -/
def NewModule (cfg : config.Config) : Module :=
  { config := cfg, providers := fun _ => none, activeProvider := none }

/-- `Module.AddProvider`: reject a duplicate name, otherwise insert
and promote the new provider to active when none is active or its
name matches the configured default.  The first component is the
returned error (message text abridged), the second the module state
after the call. -/
def Module.AddProvider (m : Module) (p : Provider) : Option String × Module :=
  let providerName := p.name
  match m.providers providerName with
  | some _ =>
    (some ("provider with name " ++ providerName ++ " is already registered"), m)
  | none =>
    let withP : Module :=
      { m with providers := fun k => if k = providerName then some p else m.providers k }
    if m.activeProvider = none ∨ m.config.DefaultProvider = providerName then
      (none, { withP with activeProvider := some p })
    else
      (none, withP)

/-- `Module.SwitchProvider`: not-found error for an absent name,
otherwise reassign the active reference. -/
def Module.SwitchProvider (m : Module) (name : String) : Option String × Module :=
  match m.providers name with
  | none => (some ("provider " ++ name ++ " not found"), m)
  | some p => (none, { m with activeProvider := some p })

/-- a registry operation, for stating reachability invariants. -/
inductive RegOp where
  | add (p : Provider)
  | switch (name : String)

/-- apply one registry operation to the module state. -/
def applyOp (m : Module) : RegOp → Module
  | .add p => (m.AddProvider p).2
  | .switch n => (m.SwitchProvider n).2

/-- run a sequence of registry operations from a given state. -/
def runOps (m : Module) (ops : List RegOp) : Module := ops.foldl applyOp m

/-- `Module.SendSMS`: no-active-provider guard, request validation
(whose outcome the model takes as `validateErr`, the result of
`req.Validate()`), then the provider call through `retry.Do` with the
module's retry configuration (`MaxDelay` 30s, `Multiplier` 2.0,
default classifier), and on failure the attempt-count wrapper around
the error from the retry engine.  `fn i` is the outcome of the
`i`-th call to `m.activeProvider.SendSMS`.  The model returns the
retry trace and the error returned to the caller; the success-path
response normalisation (filling an empty `Provider` field) touches no
claim and is omitted.  `Module.SendVoiceCall` is this function with
"voice call" in the wrapper text. -/
def Module.SendSMS (m : Module) (validateErr : Option GoError)
    (fn : Nat → Option GoError) (cancelDuring : Nat → Bool) (ctxErr : GoError) :
    retry.DoTrace × Option GoError :=
  if m.activeProvider = none then
    (⟨0, [], none⟩, some (.strErr "no active provider set"))
  else
    match validateErr with
    | some e => (⟨0, [], none⟩, some e)
    | none =>
      let retryConfig : retry.Config :=
        { maxAttempts := m.config.RetryAttempts
          initialDelay := m.config.RetryDelay
          maxDelay := 30000000000
          multiplier := 2 }
      let tr := retry.Do retryConfig retry.IsRetriable fn cancelDuring ctxErr
      match tr.result with
      | some err =>
        (tr, some (.wrapped ("failed to send SMS after " ++
          toString m.config.RetryAttempts ++ " attempts: ") err ""))
      | none => (tr, none)

end sms

/-- registry invariant: every map entry is keyed by its provider's
name, and the active provider, when set, is present in the map under
its own name. -/
def sms.ModuleInv (m : sms.Module) : Prop :=
  (∀ n p, m.providers n = some p → n = p.name) ∧
  (∀ p, m.activeProvider = some p → m.providers p.name = some p)

/-! ## Helper lemmas -/

namespace retry

theorem doAux_allfail (isRetr : GoError → Bool) (fn : Nat → Option GoError)
    (cancel : Nat → Bool) (mult : ℚ) (maxDelay : Int) (ctxErr : GoError)
    (hFail : ∀ i, (fn i).isSome = true)
    (hRetr : ∀ i e, fn i = some e → isRetr e = true)
    (hCancel : ∀ i, cancel i = false) :
    ∀ (rem attempt : Nat) (delay : Int),
      (doAux isRetr fn cancel mult maxDelay ctxErr (rem + 1) attempt delay).invocations
          = rem + 1 ∧
      ∃ e, fn (attempt + rem) = some e ∧
        (doAux isRetr fn cancel mult maxDelay ctxErr (rem + 1) attempt delay).result =
          some (wrapMaxAttempts e) := by
  intro rem
  induction rem with
  | zero =>
    intro attempt delay
    obtain ⟨e, he⟩ := Option.isSome_iff_exists.mp (hFail attempt)
    refine ⟨?_, e, by simpa using he, ?_⟩ <;> simp [doAux, he]
  | succ r ih =>
    intro attempt delay
    obtain ⟨e, he⟩ := Option.isSome_iff_exists.mp (hFail attempt)
    have hr := hRetr attempt e he
    have hc := hCancel attempt
    obtain ⟨ih1, e2, he2, ih2⟩ := ih (attempt + 1) (min (goDuration delay mult) maxDelay)
    refine ⟨?_, e2, ?_, ?_⟩
    · rw [doAux]
      simp [he, hr, hc, ih1]
    · have : attempt + (r + 1) = attempt + 1 + r := by omega
      rw [this]; exact he2
    · rw [doAux]
      simp [he, hr, hc, ih2]

theorem do_allfail (cfg : Config) (isRetr : GoError → Bool) (fn : Nat → Option GoError)
    (cancel : Nat → Bool) (ctxErr : GoError) (N : Nat) (hN : 1 ≤ N)
    (hA : cfg.maxAttempts = (N : Int))
    (hFail : ∀ i, (fn i).isSome = true)
    (hRetr : ∀ i e, fn i = some e → isRetr e = true)
    (hCancel : ∀ i, cancel i = false) :
    (Do cfg isRetr fn cancel ctxErr).invocations = N ∧
    ∃ e, fn (N - 1) = some e ∧
      (Do cfg isRetr fn cancel ctxErr).result = some (wrapMaxAttempts e) := by
  have hpos : ¬ cfg.maxAttempts ≤ 0 := by omega
  obtain ⟨r, hr⟩ : ∃ r, N = r + 1 := ⟨N - 1, by omega⟩
  have htn : cfg.maxAttempts.toNat = r + 1 := by omega
  obtain ⟨h1, e, he, h2⟩ :=
    doAux_allfail isRetr fn cancel cfg.multiplier cfg.maxDelay ctxErr hFail hRetr hCancel
      r 0 cfg.initialDelay
  refine ⟨?_, e, ?_, ?_⟩
  · simp [Do, hpos, htn, h1, hr]
  · simpa [hr] using he
  · simp [Do, hpos, htn, h2]

theorem do_first_nonretriable (cfg : Config) (isRetr : GoError → Bool)
    (fn : Nat → Option GoError) (cancel : Nat → Bool) (ctxErr : GoError) (e : GoError)
    (hA : 1 ≤ cfg.maxAttempts) (h0 : fn 0 = some e) (hNR : isRetr e = false) :
    (Do cfg isRetr fn cancel ctxErr).invocations = 1 ∧
    (cfg.maxAttempts = 1 →
      (Do cfg isRetr fn cancel ctxErr).result = some (wrapMaxAttempts e)) ∧
    (2 ≤ cfg.maxAttempts →
      (Do cfg isRetr fn cancel ctxErr).result = some e) := by
  have hpos : ¬ cfg.maxAttempts ≤ 0 := by omega
  obtain ⟨r, hr⟩ : ∃ r, cfg.maxAttempts.toNat = r + 1 :=
    ⟨cfg.maxAttempts.toNat - 1, by omega⟩
  rcases Nat.eq_zero_or_pos r with h | h
  · have h1 : cfg.maxAttempts = 1 := by omega
    refine ⟨?_, fun _ => ?_, fun hc => absurd h1 (by omega)⟩ <;>
      simp [Do, hpos, hr, h, doAux, h0]
  · have h2 : ¬ cfg.maxAttempts = 1 := by omega
    obtain ⟨r2, hr2⟩ : ∃ r2, r = r2 + 1 := ⟨r - 1, by omega⟩
    refine ⟨?_, fun hc => absurd hc h2, fun _ => ?_⟩ <;>
      · rw [Do]
        simp only [hpos, if_false, hr, hr2]
        rw [doAux]
        simp [h0, hNR]

theorem doAux_cancel (isRetr : GoError → Bool) (fn : Nat → Option GoError)
    (cancel : Nat → Bool) (mult : ℚ) (maxDelay : Int) (ctxErr : GoError) :
    ∀ (k rem attempt : Nat) (delay : Int),
      (∀ i, i ≤ k → ∃ e, fn (attempt + i) = some e ∧ isRetr e = true) →
      (∀ i, i < k → cancel (attempt + i) = false) →
      cancel (attempt + k) = true →
      k + 2 ≤ rem →
      (doAux isRetr fn cancel mult maxDelay ctxErr rem attempt delay).invocations = k + 1 ∧
      (doAux isRetr fn cancel mult maxDelay ctxErr rem attempt delay).result =
        some ctxErr := by
  intro k
  induction k with
  | zero =>
    intro rem attempt delay hFail hNC hC hrem
    obtain ⟨rr, hrr⟩ : ∃ rr, rem = rr + 1 := ⟨rem - 1, by omega⟩
    have hrr0 : rr ≠ 0 := by omega
    obtain ⟨e, he, hre⟩ := hFail 0 (Nat.le_refl 0)
    rw [Nat.add_zero] at he
    rw [Nat.add_zero] at hC
    subst hrr
    constructor <;>
      · rw [doAux]
        simp [he, hre, hC, hrr0]
  | succ k ih =>
    intro rem attempt delay hFail hNC hC hrem
    obtain ⟨rr, hrr⟩ : ∃ rr, rem = rr + 1 := ⟨rem - 1, by omega⟩
    have hrr0 : rr ≠ 0 := by omega
    obtain ⟨e, he, hre⟩ := hFail 0 (Nat.zero_le _)
    rw [Nat.add_zero] at he
    have hc0 : cancel attempt = false := by
      have := hNC 0 (Nat.succ_pos k)
      rwa [Nat.add_zero] at this
    obtain ⟨ih1, ih2⟩ := ih rr (attempt + 1) (min (goDuration delay mult) maxDelay)
      (fun i hi => by
        obtain ⟨e2, he2, hre2⟩ := hFail (i + 1) (by omega)
        exact ⟨e2, by rw [show attempt + 1 + i = attempt + (i + 1) by omega]; exact he2,
          hre2⟩)
      (fun i hi => by
        have := hNC (i + 1) (by omega)
        rwa [show attempt + 1 + i = attempt + (i + 1) by omega])
      (by rw [show attempt + 1 + k = attempt + (k + 1) by omega]; exact hC)
      (by omega)
    subst hrr
    constructor <;>
      · rw [doAux]
        simp [he, hre, hc0, hrr0, ih1, ih2]

theorem do_cancel (cfg : Config) (isRetr : GoError → Bool) (fn : Nat → Option GoError)
    (cancel : Nat → Bool) (ctxErr : GoError) (k : Nat)
    (hFail : ∀ i, i ≤ k → ∃ e, fn i = some e ∧ isRetr e = true)
    (hNC : ∀ i, i < k → cancel i = false)
    (hC : cancel k = true)
    (hA : (k : Int) + 2 ≤ cfg.maxAttempts) :
    (Do cfg isRetr fn cancel ctxErr).invocations = k + 1 ∧
    (Do cfg isRetr fn cancel ctxErr).result = some ctxErr := by
  have hpos : ¬ cfg.maxAttempts ≤ 0 := by omega
  have hrem : k + 2 ≤ cfg.maxAttempts.toNat := by omega
  obtain ⟨h1, h2⟩ := doAux_cancel isRetr fn cancel cfg.multiplier cfg.maxDelay ctxErr
    k cfg.maxAttempts.toNat 0 cfg.initialDelay
    (fun i hi => by simpa using hFail i hi)
    (fun i hi => by simpa using hNC i hi)
    (by simpa using hC) hrem
  exact ⟨by simp [Do, hpos, h1], by simp [Do, hpos, h2]⟩

end retry

theorem errorsIs_self (e : GoError) : e.errorsIs e = true := by
  cases e <;> simp [GoError.errorsIs, GoError.chainAny]

theorem errorsIs_wrapped_inner (pre post : String) (e : GoError) :
    (GoError.wrapped pre e post).errorsIs e = true := by
  have h := errorsIs_self e
  unfold GoError.errorsIs at h ⊢
  rw [GoError.chainAny, h]
  simp

theorem errorsIs_wrapMax (e : GoError) :
    (retry.wrapMaxAttempts e).errorsIs retry.errMaxAttemptsReached = true :=
  errorsIs_wrapped_inner _ _ _

theorem setIfAbsent_preserves (d : GoMap) (key : String) (w : GoValue) (k : String)
    (v : GoValue) (h : d k = some v) : setIfAbsent d key w k = some v := by
  unfold setIfAbsent
  split_ifs with hk
  · exact h
  · unfold mapSet
    by_cases hkk : k = key
    · subst hkk
      rw [h] at hk
      simp at hk
    · simp [hkk, h]

theorem setIfAbsent_other (d : GoMap) (key : String) (w : GoValue) (k : String)
    (h : k ≠ key) : setIfAbsent d key w k = d k := by
  unfold setIfAbsent mapSet
  split_ifs with hk
  · rfl
  · simp [h]

theorem setIfAbsent_absent (d : GoMap) (key : String) (w : GoValue)
    (h : d key = none) : setIfAbsent d key w key = some w := by
  simp [setIfAbsent, mapSet, h]

theorem effectiveData_preserves (m : Message) (d : GoMap) (k : String) (v : GoValue)
    (h : d k = some v) : effectiveData m d k = some v := by
  unfold effectiveData
  exact setIfAbsent_preserves _ _ _ _ _
    (setIfAbsent_preserves _ _ _ _ _ (setIfAbsent_preserves _ _ _ _ _ h))

theorem effectiveData_from_absent (m : Message) (d : GoMap)
    (h : d ("from") = none) : effectiveData m d ("from") = some (.str m.From) := by
  unfold effectiveData
  exact setIfAbsent_preserves _ _ _ _ _
    (setIfAbsent_preserves _ _ _ _ _ (setIfAbsent_absent _ _ _ h))

theorem effectiveData_to_absent (m : Message) (d : GoMap)
    (h : d ("to") = none) : effectiveData m d ("to") = some (.str m.To) := by
  unfold effectiveData
  by_cases h1 : (setIfAbsent d ("from") (.str m.From)) ("to") = none
  · exact setIfAbsent_preserves _ _ _ _ _ (setIfAbsent_absent _ _ _ h1)
  · rw [setIfAbsent_other d ("from") (.str m.From) ("to") (by decide)] at h1
    exact absurd h h1

theorem effectiveData_by_absent (m : Message) (d : GoMap)
    (h : d ("by") = none) : effectiveData m d ("by") = some (.str m.By) := by
  unfold effectiveData
  have h2 : (setIfAbsent (setIfAbsent d ("from") (.str m.From)) ("to") (.str m.To))
      ("by") = none := by
    rw [setIfAbsent_other _ ("to") _ ("by") (by decide),
      setIfAbsent_other _ ("from") _ ("by") (by decide)]
    exact h
  exact setIfAbsent_absent _ _ _ h2

namespace sms

theorem inv_NewModule (cfg : config.Config) : ModuleInv (NewModule cfg) := by
  refine ⟨fun n p h => ?_, fun p h => ?_⟩ <;> simp [NewModule] at h

theorem inv_AddProvider (m : Module) (p : Provider) (hm : ModuleInv m) :
    ModuleInv (m.AddProvider p).2 := by
  obtain ⟨h1, h2⟩ := hm
  unfold Module.AddProvider
  rcases hp : m.providers p.name with _ | q
  · simp only [hp]
    split_ifs with hact
    · refine ⟨?_, ?_⟩
      · intro n q hq
        simp only at hq
        split_ifs at hq with hn
        · cases hq; exact hn
        · exact h1 n q hq
      · intro q hq
        simp only at hq
        cases hq
        simp
    · refine ⟨?_, ?_⟩
      · intro n q hq
        simp only at hq
        split_ifs at hq with hn
        · cases hq; exact hn
        · exact h1 n q hq
      · intro q hq
        simp only at hq
        have hold := h2 q hq
        have hne : q.name ≠ p.name := by
          intro hqe
          rw [hqe, hp] at hold
          cases hold
        simp [hne, hold]
  · simpa [hp] using ⟨h1, h2⟩

theorem inv_SwitchProvider (m : Module) (name : String) (hm : ModuleInv m) :
    ModuleInv (m.SwitchProvider name).2 := by
  obtain ⟨h1, h2⟩ := hm
  unfold Module.SwitchProvider
  rcases hp : m.providers name with _ | q
  · simpa [hp] using ⟨h1, h2⟩
  · simp only [hp]
    refine ⟨fun n r hr => h1 n r hr, fun r hr => ?_⟩
    simp only [Option.some.injEq] at hr
    subst hr
    rw [← h1 name q hp]
    exact hp

theorem inv_runOps (cfg : config.Config) (ops : List RegOp) :
    ModuleInv (runOps (NewModule cfg) ops) := by
  suffices h : ∀ (m : Module), ModuleInv m → ∀ ops, ModuleInv (runOps m ops) by
    exact h _ (inv_NewModule cfg) ops
  intro m hm ops
  induction ops generalizing m with
  | nil => exact hm
  | cons op rest ih =>
    cases op with
    | add p => exact ih _ (inv_AddProvider m p hm)
    | switch n => exact ih _ (inv_SwitchProvider m n hm)

end sms

/-! ## Claims -/

/-- C1: the spec states that for every template, identity and data bag
containing a reserved key `from`/`to`/`by`, the rendered output uses
the Message identity's values, not the data bag's.  Evaluating
`Message.Render` at the repository's own test input (test "Message
fields override data map") shows the opposite: the code fills the
reserved keys only when absent, so the caller's data-bag values win
and the identity values `Sender`/`+1234567890`/`TestApp` do not
appear. -/
theorem claim_c1_reserved_keys_bag_wins :
    (Message.Render ⟨"Sender", "+1234567890", "TestApp"⟩
        "From: {from}, To: {to}, By: {by}"
        (some (mapSet (mapSet (mapSet emptyGoMap ("from") (.str "OtherSender"))
          ("to") (.str "OtherRecipient")) ("by") (.str "OtherApp")))).1 =
      "From: OtherSender, To: OtherRecipient, By: OtherApp" ∧
    (Message.Render ⟨"Sender", "+1234567890", "TestApp"⟩
        "From: {from}, To: {to}, By: {by}"
        (some (mapSet (mapSet (mapSet emptyGoMap ("from") (.str "OtherSender"))
          ("to") (.str "OtherRecipient")) ("by") (.str "OtherApp")))).1 ≠
      "From: Sender, To: +1234567890, By: TestApp" := by
  constructor <;> decide

/-- C2: the spec states that the wait after the first failed attempt
equals `initialDelay`.  Evaluating the retry loop at a policy with
`MaxAttempts = 2`, `InitialDelay = 100`, `MaxDelay = 30s`,
`Multiplier = 2.0` and an always-retriable failure shows the single
inter-attempt wait is `200`, not `100`: the code multiplies the delay
before the first sleep, so no wait of `initialDelay` ever occurs. -/
theorem claim_c2_first_wait_is_multiplied :
    (retry.Do ⟨2, 100, 30000000000, 2⟩ retry.IsRetriable
        (fun _ => some (.httpErr 500 "Server error")) (fun _ => false)
        .ctxCanceled) =
      ⟨2, [200], some (retry.wrapMaxAttempts (.httpErr 500 "Server error"))⟩ ∧
    (retry.Do ⟨2, 100, 30000000000, 2⟩ retry.IsRetriable
        (fun _ => some (.httpErr 500 "Server error")) (fun _ => false)
        .ctxCanceled).waits ≠ [100] := by
  constructor <;> decide

/-- C5: the spec states the default classifier returns `false` for
`context.Canceled` and `context.DeadlineExceeded`, `false` for unknown
errors, and `true` for network failures, timeouts and HTTP 5xx/429.
Evaluating `IsRetriable` shows every part holds except
`context.DeadlineExceeded`: because that sentinel satisfies `net.Error`
(it carries `Timeout()`/`Temporary()` methods) and the `errors.As`
net-error check precedes the context-sentinel check, the classifier
returns `true` for it, contradicting the code's own comment and its
test `TestIsRetriable` ("Context deadline exceeded" expects `false`). -/
theorem claim_c5_default_classifier :
    retry.IsRetriable .ctxDeadlineExceeded = true ∧
    retry.IsRetriable .ctxCanceled = false ∧
    retry.IsRetriable (.strErr "some error") = false ∧
    retry.IsRetriable (.netErr "dial tcp: connection refused") = true ∧
    retry.IsRetriable (.strErr "request timeout") = true ∧
    retry.IsRetriable (.httpErr 500 "Internal server error") = true ∧
    retry.IsRetriable (.httpErr 503 "Service unavailable") = true ∧
    retry.IsRetriable (.httpErr 429 "Too many requests") = true ∧
    retry.IsRetriable (.httpErr 400 "Bad request") = false ∧
    retry.IsRetriable (.httpErr 401 "Unauthorized") = false := by
  refine ⟨?_, ?_, ?_, ?_, ?_, ?_, ?_, ?_, ?_, ?_⟩ <;> decide

/-- C3: for every retry policy with `MaxAttempts = N` (`N ≥ 1`), running
`Do` on an operation that fails on every call with a retriable error
(and with the caller's context never firing) invokes the operation
exactly `N` times and returns the last error wrapped with the
attempts-exhausted sentinel `ErrMaxAttemptsReached`. -/
theorem claim_c3_retry_termination (cfg : retry.Config) (isRetr : GoError → Bool)
    (fn : Nat → Option GoError) (cancel : Nat → Bool) (ctxErr : GoError) (N : Nat)
    (hN : 1 ≤ N) (hA : cfg.maxAttempts = (N : Int))
    (hFail : ∀ i, (fn i).isSome = true)
    (hRetr : ∀ i e, fn i = some e → isRetr e = true)
    (hCancel : ∀ i, cancel i = false) :
    (retry.Do cfg isRetr fn cancel ctxErr).invocations = N ∧
    ∃ e, fn (N - 1) = some e ∧
      (retry.Do cfg isRetr fn cancel ctxErr).result = some (retry.wrapMaxAttempts e) ∧
      GoError.errorsIs (retry.wrapMaxAttempts e) retry.errMaxAttemptsReached = true := by
  obtain ⟨h1, e, he, h2⟩ :=
    retry.do_allfail cfg isRetr fn cancel ctxErr N hN hA hFail hRetr hCancel
  exact ⟨h1, e, he, h2, errorsIs_wrapMax e⟩

/-- C3 witness: the default policy (`MaxAttempts = 3`) against an
operation that always fails with an HTTP 500 error invokes it exactly
3 times and wraps the error with the attempts-exhausted sentinel. -/
theorem claim_c3_retry_termination_witness :
    (retry.Do ⟨3, 500000000, 30000000000, 2⟩ retry.IsRetriable
        (fun _ => some (.httpErr 500 "Server error")) (fun _ => false)
        .ctxCanceled).invocations = 3 ∧
    (retry.Do ⟨3, 500000000, 30000000000, 2⟩ retry.IsRetriable
        (fun _ => some (.httpErr 500 "Server error")) (fun _ => false)
        .ctxCanceled).result =
      some (retry.wrapMaxAttempts (.httpErr 500 "Server error")) := by
  obtain ⟨h1, e, he, h2, h3⟩ :=
    claim_c3_retry_termination ⟨3, 500000000, 30000000000, 2⟩ retry.IsRetriable
      (fun _ => some (.httpErr 500 "Server error")) (fun _ => false) .ctxCanceled 3
      (by decide) rfl (fun i => rfl) (fun i e h => by cases h; decide) (fun i => rfl)
  cases he
  exact ⟨h1, h2⟩

/-- C4: for every retry policy with `MaxAttempts ≥ 1`, running `Do` on
an operation whose first failure is classified non-retriable invokes
the operation exactly once; the error comes back unwrapped, except
that on the final permitted attempt (`MaxAttempts = 1`) it carries the
attempts-exhausted wrapping. -/
theorem claim_c4_nonretriable_short_circuit (cfg : retry.Config)
    (isRetr : GoError → Bool) (fn : Nat → Option GoError) (cancel : Nat → Bool)
    (ctxErr : GoError) (e : GoError)
    (hA : 1 ≤ cfg.maxAttempts) (h0 : fn 0 = some e) (hNR : isRetr e = false) :
    (retry.Do cfg isRetr fn cancel ctxErr).invocations = 1 ∧
    (cfg.maxAttempts = 1 →
      (retry.Do cfg isRetr fn cancel ctxErr).result =
        some (retry.wrapMaxAttempts e)) ∧
    (2 ≤ cfg.maxAttempts →
      (retry.Do cfg isRetr fn cancel ctxErr).result = some e) :=
  retry.do_first_nonretriable cfg isRetr fn cancel ctxErr e hA h0 hNR

/-- C4 witness: a policy with `MaxAttempts = 3` against an operation
whose first failure is an HTTP 400 error (non-retriable) invokes it
exactly once and returns the error unwrapped. -/
theorem claim_c4_nonretriable_short_circuit_witness :
    (retry.Do ⟨3, 500000000, 30000000000, 2⟩ retry.IsRetriable
        (fun _ => some (.httpErr 400 "Bad request")) (fun _ => false)
        .ctxCanceled).invocations = 1 ∧
    (retry.Do ⟨3, 500000000, 30000000000, 2⟩ retry.IsRetriable
        (fun _ => some (.httpErr 400 "Bad request")) (fun _ => false)
        .ctxCanceled).result = some (.httpErr 400 "Bad request") := by
  obtain ⟨h1, h2, h3⟩ :=
    claim_c4_nonretriable_short_circuit ⟨3, 500000000, 30000000000, 2⟩
      retry.IsRetriable (fun _ => some (.httpErr 400 "Bad request")) (fun _ => false)
      .ctxCanceled (.httpErr 400 "Bad request") (by decide) rfl (by decide)
  exact ⟨h1, h3 (by decide)⟩

/-- C6: if the caller's cancellation signal fires during the wait that
follows attempt `k` (each earlier attempt having failed retriably and
each earlier wait having completed), `Do` makes no further attempt —
the operation runs exactly `k + 1` times — and returns the context's
error, not an attempts-exhausted error. -/
theorem claim_c6_cancellation_precedence (cfg : retry.Config)
    (isRetr : GoError → Bool) (fn : Nat → Option GoError) (cancel : Nat → Bool)
    (ctxErr : GoError) (k : Nat)
    (hFail : ∀ i, i ≤ k → ∃ e, fn i = some e ∧ isRetr e = true)
    (hNC : ∀ i, i < k → cancel i = false)
    (hC : cancel k = true)
    (hA : (k : Int) + 2 ≤ cfg.maxAttempts) :
    (retry.Do cfg isRetr fn cancel ctxErr).invocations = k + 1 ∧
    (retry.Do cfg isRetr fn cancel ctxErr).result = some ctxErr :=
  retry.do_cancel cfg isRetr fn cancel ctxErr k hFail hNC hC hA

/-- C6 witness: with `MaxAttempts = 3` and the context firing during
the very first inter-attempt wait, the operation runs exactly once and
`Do` returns the context's error. -/
theorem claim_c6_cancellation_precedence_witness :
    (retry.Do ⟨3, 100000000, 30000000000, 2⟩ retry.IsRetriable
        (fun _ => some (.httpErr 500 "Server error")) (fun _ => true)
        .ctxDeadlineExceeded).invocations = 1 ∧
    (retry.Do ⟨3, 100000000, 30000000000, 2⟩ retry.IsRetriable
        (fun _ => some (.httpErr 500 "Server error")) (fun _ => true)
        .ctxDeadlineExceeded).result = some .ctxDeadlineExceeded :=
  claim_c6_cancellation_precedence ⟨3, 100000000, 30000000000, 2⟩ retry.IsRetriable
    (fun _ => some (.httpErr 500 "Server error")) (fun _ => true) .ctxDeadlineExceeded 0
    (fun i hi => ⟨.httpErr 500 "Server error", rfl, by decide⟩)
    (fun i hi => absurd hi (Nat.not_lt_zero i))
    rfl (by decide)

/-- C7: the spec states a permanent (non-retriable) delivery error from
a backend call is surfaced immediately and unwrapped.  Evaluating
`Module.SendSMS` on a registry whose active provider always fails with
the non-retriable error `invalid recipient` shows the caller receives
the error wrapped in the `failed to send SMS after 3 attempts`
prefix, not the bare error — only the retry engine's
attempts-exhausted wrapping is skipped. -/
theorem claim_c7_permanent_error_counterexample :
    (sms.Module.SendSMS
        { config := ⟨"p", 3, 500000000⟩
          providers := fun k => if k = "p" then some ⟨"p", 0⟩ else none
          activeProvider := some ⟨"p", 0⟩ }
        none (fun _ => some (.strErr "invalid recipient")) (fun _ => false)
        .ctxCanceled).2 =
      some (.wrapped "failed to send SMS after 3 attempts: "
        (.strErr "invalid recipient") "") ∧
    (sms.Module.SendSMS
        { config := ⟨"p", 3, 500000000⟩
          providers := fun k => if k = "p" then some ⟨"p", 0⟩ else none
          activeProvider := some ⟨"p", 0⟩ }
        none (fun _ => some (.strErr "invalid recipient")) (fun _ => false)
        .ctxCanceled).2 ≠ some (.strErr "invalid recipient") ∧
    (sms.Module.SendSMS
        { config := ⟨"p", 3, 500000000⟩
          providers := fun k => if k = "p" then some ⟨"p", 0⟩ else none
          activeProvider := some ⟨"p", 0⟩ }
        none (fun _ => some (.strErr "invalid recipient")) (fun _ => false)
        .ctxCanceled).1.invocations = 1 := by
  refine ⟨?_, ?_, ?_⟩ <;> decide

/-- C7 amended: when the active provider's first failure is
non-retriable (and the retry budget allows at least two attempts),
`SendSMS` invokes the provider exactly once; the error is surfaced
without the retry engine's attempts-exhausted wrapping, but inside the
`failed to send SMS after N attempts` wrapper, which keeps the
original error reachable through the unwrap chain (`errors.Is`). -/
theorem claim_c7_permanent_error_wrapped (m : sms.Module) (fn : Nat → Option GoError)
    (cancel : Nat → Bool) (ctxErr : GoError) (e : GoError)
    (hact : m.activeProvider.isSome = true)
    (h0 : fn 0 = some e) (hNR : retry.IsRetriable e = false)
    (hA : 2 ≤ m.config.RetryAttempts) :
    (m.SendSMS none fn cancel ctxErr).1.invocations = 1 ∧
    (m.SendSMS none fn cancel ctxErr).2 =
      some (.wrapped ("failed to send SMS after " ++
        toString m.config.RetryAttempts ++ " attempts: ") e "") ∧
    GoError.errorsIs
      (.wrapped ("failed to send SMS after " ++
        toString m.config.RetryAttempts ++ " attempts: ") e "") e = true := by
  have hne : ¬ m.activeProvider = none := by
    intro h; rw [h] at hact; simp at hact
  have hA1 : 1 ≤ (⟨m.config.RetryAttempts, m.config.RetryDelay,
      30000000000, 2⟩ : retry.Config).maxAttempts := by
    show 1 ≤ m.config.RetryAttempts
    omega
  obtain ⟨h1, -, h3⟩ := retry.do_first_nonretriable
    ⟨m.config.RetryAttempts, m.config.RetryDelay, 30000000000, 2⟩
    retry.IsRetriable fn cancel ctxErr e hA1 h0 hNR
  have h3' := h3 hA
  refine ⟨?_, ?_, errorsIs_wrapped_inner _ _ e⟩
  · simp [sms.Module.SendSMS, hne, h3', h1]
  · simp [sms.Module.SendSMS, hne, h3']

/-- C7 amended witness: the concrete registry of the counterexample,
seen through the amended statement. -/
theorem claim_c7_permanent_error_wrapped_witness :
    (sms.Module.SendSMS
        { config := ⟨"p", 3, 500000000⟩
          providers := fun k => if k = "p" then some ⟨"p", 0⟩ else none
          activeProvider := some ⟨"p", 0⟩ }
        none (fun _ => some (.strErr "invalid recipient")) (fun _ => false)
        .ctxCanceled).1.invocations = 1 ∧
    (sms.Module.SendSMS
        { config := ⟨"p", 3, 500000000⟩
          providers := fun k => if k = "p" then some ⟨"p", 0⟩ else none
          activeProvider := some ⟨"p", 0⟩ }
        none (fun _ => some (.strErr "invalid recipient")) (fun _ => false)
        .ctxCanceled).2 =
      some (.wrapped ("failed to send SMS after " ++ toString (3 : Int) ++
        " attempts: ") (.strErr "invalid recipient") "") := by
  obtain ⟨h1, h2, h3⟩ := claim_c7_permanent_error_wrapped
    { config := ⟨"p", 3, 500000000⟩
      providers := fun k => if k = "p" then some ⟨"p", 0⟩ else none
      activeProvider := some ⟨"p", 0⟩ }
    (fun _ => some (.strErr "invalid recipient")) (fun _ => false) .ctxCanceled
    (.strErr "invalid recipient") rfl rfl (by decide) (by decide)
  exact ⟨h1, h2⟩

/-- C8: registering a provider whose name equals that of an
already-registered provider returns an error and leaves the registry
unchanged: the state is exactly the pre-call state, the original
provider stays bound to the name and the active reference is not
altered. -/
theorem claim_c8_duplicate_registration (m : sms.Module) (p q : sms.Provider)
    (h : m.providers p.name = some q) :
    (m.AddProvider p).1.isSome = true ∧
    (m.AddProvider p).2 = m ∧
    (m.AddProvider p).2.providers p.name = some q ∧
    (m.AddProvider p).2.activeProvider = m.activeProvider := by
  unfold sms.Module.AddProvider
  simp [h]

/-- C8 witness: registering `twilio` twice — the second registration
errors, the state is untouched and the first instance stays bound. -/
theorem claim_c8_duplicate_registration_witness :
    ((((sms.NewModule ⟨"", 3, 500000000⟩).AddProvider ⟨"twilio", 0⟩).2).AddProvider
        ⟨"twilio", 1⟩).1.isSome = true ∧
    ((((sms.NewModule ⟨"", 3, 500000000⟩).AddProvider ⟨"twilio", 0⟩).2).AddProvider
        ⟨"twilio", 1⟩).2 =
      ((sms.NewModule ⟨"", 3, 500000000⟩).AddProvider ⟨"twilio", 0⟩).2 ∧
    ((((sms.NewModule ⟨"", 3, 500000000⟩).AddProvider ⟨"twilio", 0⟩).2).AddProvider
        ⟨"twilio", 1⟩).2.providers ("twilio") = some ⟨"twilio", 0⟩ ∧
    ((((sms.NewModule ⟨"", 3, 500000000⟩).AddProvider ⟨"twilio", 0⟩).2).AddProvider
        ⟨"twilio", 1⟩).2.activeProvider =
      ((sms.NewModule ⟨"", 3, 500000000⟩).AddProvider ⟨"twilio", 0⟩).2.activeProvider :=
  claim_c8_duplicate_registration _ ⟨"twilio", 1⟩ ⟨"twilio", 0⟩ (by decide)

/-- C9: after any sequence of register and switch operations starting
from a fresh registry, the active provider, when set, is a
currently-registered entry; and switching to an unregistered name
fails, leaving the whole state (in particular the previous active
provider) unchanged. -/
theorem claim_c9_active_refers_to_registered :
    (∀ (cfg : config.Config) (ops : List sms.RegOp) (p : sms.Provider),
      (sms.runOps (sms.NewModule cfg) ops).activeProvider = some p →
      ∃ n, (sms.runOps (sms.NewModule cfg) ops).providers n = some p) ∧
    (∀ (m : sms.Module) (name : String), m.providers name = none →
      (m.SwitchProvider name).1.isSome = true ∧
      (m.SwitchProvider name).2 = m) := by
  constructor
  · intro cfg ops p hp
    exact ⟨p.name, (sms.inv_runOps cfg ops).2 p hp⟩
  · intro m name h
    unfold sms.Module.SwitchProvider
    simp [h]

/-- C9 witness: after registering `a` and switching to it, the active
provider is registered; switching a fresh registry to a missing name
errors and changes nothing. -/
theorem claim_c9_active_refers_to_registered_witness :
    (∃ n, (sms.runOps (sms.NewModule ⟨"", 3, 0⟩)
        [.add ⟨"a", 0⟩, .switch "a"]).providers n = some ⟨"a", 0⟩) ∧
    ((sms.NewModule ⟨"", 3, 0⟩).SwitchProvider "missing").1.isSome = true ∧
    ((sms.NewModule ⟨"", 3, 0⟩).SwitchProvider "missing").2 =
      sms.NewModule ⟨"", 3, 0⟩ :=
  ⟨claim_c9_active_refers_to_registered.1 ⟨"", 3, 0⟩ [.add ⟨"a", 0⟩, .switch "a"]
      ⟨"a", 0⟩ (by decide),
    claim_c9_active_refers_to_registered.2 (sms.NewModule ⟨"", 3, 0⟩) "missing" rfl⟩

/-- C10: for every non-empty template and non-nil data bag, `Render`
mutates the caller's bag: after the call the bag is the effective bag,
in which each of `from`, `to`, `by` that was absent before the call is
now present with the identity's value, while every pre-existing entry
is unchanged. -/
theorem claim_c10_render_mutates_bag (m : Message) (d : GoMap) (t : String)
    (ht : t ≠ "") :
    (m.Render t (some d)).2 = some (effectiveData m d) ∧
    (∀ k v, d k = some v → effectiveData m d k = some v) ∧
    (d ("from") = none → effectiveData m d ("from") = some (.str m.From)) ∧
    (d ("to") = none → effectiveData m d ("to") = some (.str m.To)) ∧
    (d ("by") = none → effectiveData m d ("by") = some (.str m.By)) := by
  refine ⟨?_, fun k v h => effectiveData_preserves m d k v h,
    effectiveData_from_absent m d, effectiveData_to_absent m d,
    effectiveData_by_absent m d⟩
  simp [Message.Render, ht]

/-- C10 witness: rendering `Hello {name}` with a bag holding only
`name` leaves the returned bag holding the pre-existing `name` entry
and the three added identity entries. -/
theorem claim_c10_render_mutates_bag_witness :
    ((Message.mk "S" "T" "B").Render "Hello {name}"
        (some (mapSet emptyGoMap ("name") (.str "John")))).2 =
      some (effectiveData (Message.mk "S" "T" "B")
        (mapSet emptyGoMap ("name") (.str "John"))) ∧
    effectiveData (Message.mk "S" "T" "B")
      (mapSet emptyGoMap ("name") (.str "John")) ("name") = some (.str "John") ∧
    effectiveData (Message.mk "S" "T" "B")
      (mapSet emptyGoMap ("name") (.str "John")) ("from") = some (.str "S") := by
  obtain ⟨h1, h2, h3, -, -⟩ := claim_c10_render_mutates_bag (Message.mk "S" "T" "B")
    (mapSet emptyGoMap ("name") (.str "John")) "Hello {name}" (by decide)
  exact ⟨h1, h2 ("name") (.str "John") rfl, h3 rfl⟩
